import Mathlib

/- Shallow embedding of the LogAnalyzer detection engine
(`EventDetector.cpp` together with its declarations in `EventDetector.h`,
`LogEntry.h`) and proofs about it.

Modelling choices:
* Timestamps (`std::chrono::system_clock::time_point`) are modelled as `Int`
  seconds.  The log format has one-second resolution, so every timestamp
  reaching the detector is an exact whole number of seconds.
* `duration_cast<std::chrono::minutes>` truncates toward zero; the duration
  it is applied to is nonnegative by construction, and on nonnegative
  integers Lean's `Int` division agrees with that truncation.
* `getHourOfDay` calls `localtime`, an ambient-environment dependency; it is
  modelled as an explicit function parameter `hourOf` of the after-hours
  detector and of `detectAll`.
* `std::sort` with comparator `a.timestamp < b.timestamp` leaves the relative
  order of records with equal timestamps unspecified; the model fixes the
  stable ordering (insertion sort by `≤` on timestamps), which is one of the
  outcomes `std::sort` is allowed to produce.
* `std::map<std::string, ...>` iteration visits usernames in ascending
  lexicographic order, and each mapped vector holds the filtered records in
  input order; both are reproduced directly (sorted distinct usernames, and
  an order-preserving filter per username).  `std::set<std::string>`
  likewise iterates its distinct elements in ascending order, modelled by
  `dedup` followed by sorting.
* The `description` field of `SuspiciousEvent` (free text assembled only for
  reporting and never read back by the engine) is omitted from the model.
* The outer `for` loops over a user's records advance the index by at least
  one per iteration, so they make at most `length` steps; the model makes
  that bound explicit with a fuel argument initialised to the list length,
  keeping every definition structurally recursive and executable.
-/

namespace LogAnalyzer

/-- Mirror of `enum class LoginStatus` in `LogEntry.h`. -/
inductive LoginStatus where
  | SUCCESS
  | FAILED
  | UNKNOWN
deriving DecidableEq, Repr

/-- Mirror of `struct LogEntry` in `LogEntry.h` (timestamp in seconds). -/
structure LogEntry where
  timestamp : Int
  username : String
  ip_address : String
  status : LoginStatus
deriving DecidableEq, Repr

/-- Mirror of `enum class SuspiciousEventType` in `EventDetector.h`. -/
inductive SuspiciousEventType where
  | MULTIPLE_FAILED_LOGINS
  | LOGIN_OUTSIDE_BUSINESS_HOURS
  | MULTIPLE_IP_ADDRESSES
deriving DecidableEq, Repr

/-- Mirror of `struct SuspiciousEvent` in `EventDetector.h`, without the
presentation-only `description` string. -/
structure SuspiciousEvent where
  type : SuspiciousEventType
  username : String
  ip_addresses : List String
  first_occurrence : Int
  last_occurrence : Int
  event_count : Int
deriving DecidableEq, Repr

/-- The four configuration members of class `EventDetector`. -/
structure DetectorConfig where
  failed_login_threshold : Int
  time_window_minutes : Int
  business_hour_start : Int
  business_hour_end : Int
deriving DecidableEq, Repr

/-- The default `EventDetector()` constructor values. -/
def defaultConfig : DetectorConfig :=
  { failed_login_threshold := 5
    time_window_minutes := 10
    business_hour_start := 8
    business_hour_end := 18 }

/-- Mirror of `EventDetector::isWithinTimeWindow`: absolute difference of the
two timestamps, truncated to whole minutes, compared inclusively against the
configured window. -/
def isWithinTimeWindow (cfg : DetectorConfig) (time1 time2 : Int) : Bool :=
  let duration := if time1 > time2 then time1 - time2 else time2 - time1
  let minutes := duration / 60
  minutes ≤ cfg.time_window_minutes

/-- Comparator used by the per-user sorts (`a.timestamp < b.timestamp` in the
source; the model uses its reflexive closure, see the header comment). -/
def entryLE (a b : LogEntry) : Prop := a.timestamp ≤ b.timestamp

instance : DecidableRel entryLE :=
  fun a b => inferInstanceAs (Decidable (a.timestamp ≤ b.timestamp))

instance : IsTotal LogEntry entryLE := ⟨fun a b => le_total a.timestamp b.timestamp⟩

instance : IsTrans LogEntry entryLE := ⟨fun _ _ _ h1 h2 => le_trans h1 h2⟩

/-- The per-user `std::sort` by ascending timestamp. -/
def sortByTimestamp (l : List LogEntry) : List LogEntry :=
  List.insertionSort entryLE l

/-- The `std::string` comparison `operator<` (used by `std::map` and
`std::set` key ordering) is lexicographic on the character sequence; its
reflexive closure, expressed on the underlying character lists.  It orders
strings exactly as Mathlib's `<` on `String` does. -/
def strLE (a b : String) : Prop := a.data ≤ b.data

instance : DecidableRel strLE :=
  fun a b => inferInstanceAs (Decidable (a.data ≤ b.data))

instance : IsTotal String strLE := ⟨fun a b => le_total a.data b.data⟩

instance : IsTrans String strLE := ⟨fun _ _ _ h1 h2 => le_trans h1 h2⟩

/-- Step 1 filter of `detectMultipleFailedLogins`: only FAILED records. -/
def failedEntries (entries : List LogEntry) : List LogEntry :=
  entries.filter fun e => e.status = LoginStatus.FAILED

/-- Key set of the `std::map` grouping failed records: the distinct
usernames, in the ascending order in which map iteration visits them. -/
def failedUsers (entries : List LogEntry) : List String :=
  List.insertionSort strLE ((failedEntries entries).map (fun e => e.username)).dedup

/-- The vector accumulated for one username by the grouping pass (input
order preserved, exactly as successive `push_back` calls do). -/
def failedGroup (entries : List LogEntry) (username : String) : List LogEntry :=
  (failedEntries entries).filter fun e => e.username = username

/-- The `SuspiciousEvent` built at an emission point of
`detectMultipleFailedLogins` (window start = anchor, window end = last
included record, count = cluster size, single source address: the anchor's). -/
def mkFailedEvent (username : String) (anchor wend : LogEntry) (count : Int) :
    SuspiciousEvent :=
  { type := SuspiciousEventType.MULTIPLE_FAILED_LOGINS
    username := username
    ip_addresses := [anchor.ip_address]
    first_occurrence := anchor.timestamp
    last_occurrence := wend.timestamp
    event_count := count }

/-- The anchor scan of `detectMultipleFailedLogins` (steps 3 and 4) over one
user's time-sorted failed records.  At each anchor the forward scan is the
`takeWhile` of the within-window test (the source breaks at the first record
outside the window); on emission the anchor skips past the last included
record, otherwise it advances by one.  The fuel argument bounds the number
of loop iterations; it is initialised to the list length, which the loop
never exceeds since the index grows by at least one per iteration. -/
def scanFailedAux (cfg : DetectorConfig) (username : String) :
    Nat → List LogEntry → List SuspiciousEvent
  | _, [] => []
  | 0, _ :: _ => []
  | fuel + 1, anchor :: rest =>
    let included := rest.takeWhile fun e =>
      isWithinTimeWindow cfg anchor.timestamp e.timestamp
    if cfg.failed_login_threshold ≤ 1 + (included.length : Int) then
      mkFailedEvent username anchor (included.getLastD anchor)
          (1 + (included.length : Int)) ::
        scanFailedAux cfg username fuel (rest.drop included.length)
    else
      scanFailedAux cfg username fuel rest

/-- The anchor scan started with its loop-iteration bound. -/
def scanFailed (cfg : DetectorConfig) (username : String)
    (sorted_logins : List LogEntry) : List SuspiciousEvent :=
  scanFailedAux cfg username sorted_logins.length sorted_logins

/-- Mirror of `EventDetector::detectMultipleFailedLogins`: group FAILED
records by username (map iteration ascending by username), sort each group
by timestamp, run the anchor scan, concatenate. -/
def detectMultipleFailedLogins (cfg : DetectorConfig) (entries : List LogEntry) :
    List SuspiciousEvent :=
  (failedUsers entries).flatMap fun u =>
    scanFailed cfg u (sortByTimestamp (failedGroup entries u))

/-- The `SuspiciousEvent` built by `detectLoginsOutsideBusinessHours` for one
qualifying record: window start = window end = the record's timestamp,
count 1, single source address. -/
def mkAfterHoursEvent (e : LogEntry) : SuspiciousEvent :=
  { type := SuspiciousEventType.LOGIN_OUTSIDE_BUSINESS_HOURS
    username := e.username
    ip_addresses := [e.ip_address]
    first_occurrence := e.timestamp
    last_occurrence := e.timestamp
    event_count := 1 }

/-- Mirror of `EventDetector::detectLoginsOutsideBusinessHours`: skip
non-SUCCESS records, flag a record whose hour is `< start` or `>= end`.
`hourOf` stands for `getHourOfDay` (a `localtime` call in the source, hence
an explicit environment parameter here). -/
def detectLoginsOutsideBusinessHours (hourOf : Int → Int) (cfg : DetectorConfig) :
    List LogEntry → List SuspiciousEvent
  | [] => []
  | e :: rest =>
    if e.status ≠ LoginStatus.SUCCESS then
      detectLoginsOutsideBusinessHours hourOf cfg rest
    else if hourOf e.timestamp < cfg.business_hour_start ∨
        cfg.business_hour_end ≤ hourOf e.timestamp then
      mkAfterHoursEvent e :: detectLoginsOutsideBusinessHours hourOf cfg rest
    else
      detectLoginsOutsideBusinessHours hourOf cfg rest

/-- Step 1 filter of `detectMultipleIPAddresses`: only SUCCESS records. -/
def successEntries (entries : List LogEntry) : List LogEntry :=
  entries.filter fun e => e.status = LoginStatus.SUCCESS

/-- Key set of the `std::map` grouping successful records. -/
def successUsers (entries : List LogEntry) : List String :=
  List.insertionSort strLE ((successEntries entries).map (fun e => e.username)).dedup

/-- The vector accumulated for one username by the success grouping pass. -/
def successGroup (entries : List LogEntry) (username : String) : List LogEntry :=
  (successEntries entries).filter fun e => e.username = username

/-- Contents of the `std::set<std::string>` of addresses accumulated during
one anchor scan, in the ascending order set iteration yields. -/
def sortedAddresses (addrs : List String) : List String :=
  List.insertionSort strLE addrs.dedup

/-- The `SuspiciousEvent` built at an emission point of
`detectMultipleIPAddresses`: the address vector is the full distinct-address
set in ascending order and the count is its size (not the record count). -/
def mkMultiIPEvent (username : String) (ips : List String)
    (first_ts last_ts : Int) : SuspiciousEvent :=
  { type := SuspiciousEventType.MULTIPLE_IP_ADDRESSES
    username := username
    ip_addresses := ips
    first_occurrence := first_ts
    last_occurrence := last_ts
    event_count := (ips.length : Int) }

/-- The anchor scan of `detectMultipleIPAddresses` (steps 3 and 4) over one
user's time-sorted successful records: same window scan as the failed-login
detector, but accumulating the set of distinct addresses and emitting when
that set has at least two elements.  Fuel as in `scanFailedAux`. -/
def scanMultiIPAux (cfg : DetectorConfig) (username : String) :
    Nat → List LogEntry → List SuspiciousEvent
  | _, [] => []
  | 0, _ :: _ => []
  | fuel + 1, anchor :: rest =>
    let included := rest.takeWhile fun e =>
      isWithinTimeWindow cfg anchor.timestamp e.timestamp
    let ips := sortedAddresses ((anchor :: included).map fun e => e.ip_address)
    if 2 ≤ ips.length then
      mkMultiIPEvent username ips anchor.timestamp
          (included.getLastD anchor).timestamp ::
        scanMultiIPAux cfg username fuel (rest.drop included.length)
    else
      scanMultiIPAux cfg username fuel rest

/-- The multi-address anchor scan started with its loop-iteration bound. -/
def scanMultiIP (cfg : DetectorConfig) (username : String)
    (sorted_logins : List LogEntry) : List SuspiciousEvent :=
  scanMultiIPAux cfg username sorted_logins.length sorted_logins

/-- Mirror of `EventDetector::detectMultipleIPAddresses`. -/
def detectMultipleIPAddresses (cfg : DetectorConfig) (entries : List LogEntry) :
    List SuspiciousEvent :=
  (successUsers entries).flatMap fun u =>
    scanMultiIP cfg u (sortByTimestamp (successGroup entries u))

/-- Mirror of `EventDetector::detectAll`: the three detectors run
independently on the same input, results concatenated in fixed order. -/
def detectAll (hourOf : Int → Int) (cfg : DetectorConfig)
    (entries : List LogEntry) : List SuspiciousEvent :=
  detectMultipleFailedLogins cfg entries ++
    detectLoginsOutsideBusinessHours hourOf cfg entries ++
      detectMultipleIPAddresses cfg entries

/-- The after-hours rule of one record as the specification words it
(section 4.2): only SUCCESS records are evaluated, a record is outside when
its local hour is `< start` or `>= end`, and a qualifying record yields one
finding with window start = window end = its timestamp and count 1.  Used to
state the per-record characterisation of the detector. -/
def afterHoursSpec (hourOf : Int → Int) (cfg : DetectorConfig) (e : LogEntry) :
    Option SuspiciousEvent :=
  if e.status = LoginStatus.SUCCESS ∧
      (hourOf e.timestamp < cfg.business_hour_start ∨
        cfg.business_hour_end ≤ hourOf e.timestamp) then
    some (mkAfterHoursEvent e)
  else
    none

/-- Concrete scenario of the specification example (section 8): seven FAILED
records for user alice at minute offsets 0 through 6 from a base timestamp. -/
def c2Entries : List LogEntry :=
  [⟨0, "alice", "192.168.1.1", LoginStatus.FAILED⟩,
   ⟨60, "alice", "192.168.1.1", LoginStatus.FAILED⟩,
   ⟨120, "alice", "192.168.1.1", LoginStatus.FAILED⟩,
   ⟨180, "alice", "192.168.1.1", LoginStatus.FAILED⟩,
   ⟨240, "alice", "192.168.1.1", LoginStatus.FAILED⟩,
   ⟨300, "alice", "192.168.1.1", LoginStatus.FAILED⟩,
   ⟨360, "alice", "192.168.1.1", LoginStatus.FAILED⟩]

/-- Concrete two-record cluster (threshold 3 scenarios): victor fails at
659 s and 718 s, which are within one minute of each other. -/
def victorEntries : List LogEntry :=
  [⟨659, "victor", "10.0.0.1", LoginStatus.FAILED⟩,
   ⟨718, "victor", "10.0.0.2", LoginStatus.FAILED⟩]

/-- An additional FAILED record for victor at time 0, earlier than the
cluster and exactly 10 truncated minutes away from its earliest record. -/
def victorAdded : LogEntry := ⟨0, "victor", "10.0.0.3", LoginStatus.FAILED⟩

/-- Concrete two-record cluster for erin (threshold 3 scenarios). -/
def erinEntries : List LogEntry :=
  [⟨0, "erin", "1.1.1.1", LoginStatus.FAILED⟩,
   ⟨59, "erin", "1.1.1.1", LoginStatus.FAILED⟩]

/-- An additional FAILED record for erin after the cluster, exactly 10
truncated minutes away from its earliest record. -/
def erinAdded : LogEntry := ⟨600, "erin", "1.1.1.1", LoginStatus.FAILED⟩

/-- Two FAILED records for carol within one minute (threshold 1 scenarios). -/
def carolEntries : List LogEntry :=
  [⟨0, "carol", "9.9.9.9", LoginStatus.FAILED⟩,
   ⟨60, "carol", "9.9.9.9", LoginStatus.FAILED⟩]

/-- A single FAILED record for dave (threshold 1 scenarios). -/
def daveEntries : List LogEntry :=
  [⟨0, "dave", "7.7.7.7", LoginStatus.FAILED⟩]

/-- Two successful logins by bob from two addresses exactly 10 minutes
apart. -/
def bobEntries : List LogEntry :=
  [⟨0, "bob", "1.1.1.1", LoginStatus.SUCCESS⟩,
   ⟨600, "bob", "2.2.2.2", LoginStatus.SUCCESS⟩]

/-- The multi-address finding the engine emits for `bobEntries`. -/
def bobEvent : SuspiciousEvent :=
  ⟨SuspiciousEventType.MULTIPLE_IP_ADDRESSES, "bob", ["1.1.1.1", "2.2.2.2"], 0, 600, 2⟩

/- Helper lemmas about the within-window test. -/

lemma isWithinTimeWindow_eq_true_iff (cfg : DetectorConfig) (t1 t2 : Int) :
    isWithinTimeWindow cfg t1 t2 = true ↔
      ((((t1 - t2).natAbs / 60 : Nat) : Int)) ≤ cfg.time_window_minutes := by
  simp only [isWithinTimeWindow, decide_eq_true_eq]
  omega

lemma isWithinTimeWindow_comm (cfg : DetectorConfig) (t1 t2 : Int) :
    isWithinTimeWindow cfg t1 t2 = isWithinTimeWindow cfg t2 t1 := by
  rw [Bool.eq_iff_iff, isWithinTimeWindow_eq_true_iff, isWithinTimeWindow_eq_true_iff]
  omega

lemma isWithinTimeWindow_mono (cfg : DetectorConfig) {a b c d : Int}
    (h : (a - b).natAbs ≤ (c - d).natAbs)
    (hw : isWithinTimeWindow cfg c d = true) :
    isWithinTimeWindow cfg a b = true := by
  rw [isWithinTimeWindow_eq_true_iff] at hw ⊢
  omega

/- Helper lemmas about the failed-login anchor scan. -/

lemma scanFailedAux_nil (cfg : DetectorConfig) (u : String) (fuel : Nat) :
    scanFailedAux cfg u fuel [] = [] := by
  cases fuel <;> rfl

lemma scanFailedAux_short (cfg : DetectorConfig) (u : String) :
    ∀ (fuel : Nat) (l : List LogEntry),
      (l.length : Int) < cfg.failed_login_threshold →
      scanFailedAux cfg u fuel l = [] := by
  intro fuel
  induction fuel with
  | zero => intro l _; cases l <;> rfl
  | succ n ih =>
    intro l hl
    cases l with
    | nil => rfl
    | cons a rest =>
      have hsub : (rest.takeWhile fun e =>
          isWithinTimeWindow cfg a.timestamp e.timestamp).length ≤ rest.length :=
        List.Sublist.length_le (List.takeWhile_sublist _)
      simp only [List.length_cons] at hl
      simp only [scanFailedAux]
      rw [if_neg (by omega)]
      exact ih rest (by omega)

lemma scanFailed_short (cfg : DetectorConfig) (u : String) (l : List LogEntry)
    (h : (l.length : Int) < cfg.failed_login_threshold) :
    scanFailed cfg u l = [] :=
  scanFailedAux_short cfg u l.length l h

lemma scanFailed_all_within (cfg : DetectorConfig) (u : String)
    (anchor : LogEntry) (rest : List LogEntry)
    (hw : ∀ e ∈ rest, isWithinTimeWindow cfg anchor.timestamp e.timestamp = true)
    (hT : cfg.failed_login_threshold ≤ 1 + (rest.length : Int)) :
    scanFailed cfg u (anchor :: rest) =
      [mkFailedEvent u anchor (rest.getLastD anchor) (1 + (rest.length : Int))] := by
  have htake : (rest.takeWhile fun e =>
      isWithinTimeWindow cfg anchor.timestamp e.timestamp) = rest :=
    List.takeWhile_eq_self_iff.mpr hw
  show scanFailedAux cfg u (anchor :: rest).length (anchor :: rest) = _
  simp only [List.length_cons, scanFailedAux, htake]
  rw [if_pos hT, List.drop_length, scanFailedAux_nil]

lemma scanFailedAux_mem (cfg : DetectorConfig) (u : String) :
    ∀ (fuel : Nat) (l : List LogEntry) (ev : SuspiciousEvent),
      ev ∈ scanFailedAux cfg u fuel l →
      ∃ a, a ∈ l ∧ ev.username = u ∧
        ev.type = SuspiciousEventType.MULTIPLE_FAILED_LOGINS ∧
        ev.ip_addresses = [a.ip_address] ∧ ev.first_occurrence = a.timestamp := by
  intro fuel
  induction fuel with
  | zero => intro l ev h; cases l <;> simp [scanFailedAux] at h
  | succ n ih =>
    intro l ev h
    cases l with
    | nil => simp [scanFailedAux] at h
    | cons a rest =>
      simp only [scanFailedAux] at h
      by_cases hc : cfg.failed_login_threshold ≤
          1 + (((rest.takeWhile fun e =>
            isWithinTimeWindow cfg a.timestamp e.timestamp).length : Int))
      · rw [if_pos hc] at h
        rcases List.mem_cons.mp h with hev | hev
        · exact ⟨a, List.mem_cons_self a rest, by simp [hev, mkFailedEvent]⟩
        · obtain ⟨b, hb, hrest⟩ := ih _ ev hev
          exact ⟨b, List.mem_cons_of_mem a (List.drop_subset _ _ hb), hrest⟩
      · rw [if_neg hc] at h
        obtain ⟨b, hb, hrest⟩ := ih rest ev h
        exact ⟨b, List.mem_cons_of_mem a hb, hrest⟩


/- Grouping lemmas: the map keys are the distinct usernames, each key's
vector is the order-preserving filter of the input. -/

lemma failedUsers_nodup (entries : List LogEntry) : (failedUsers entries).Nodup :=
  ((List.perm_insertionSort _ _).nodup_iff).mpr (List.nodup_dedup _)

lemma mem_failedUsers (entries : List LogEntry) (u : String) :
    u ∈ failedUsers entries ↔ ∃ e ∈ failedEntries entries, e.username = u := by
  simp [failedUsers, (List.perm_insertionSort _ _).mem_iff, List.mem_dedup]

lemma mem_failedGroup (entries : List LogEntry) (u : String) (e : LogEntry) :
    e ∈ failedGroup entries u ↔
      e ∈ entries ∧ e.status = LoginStatus.FAILED ∧ e.username = u := by
  simp only [failedGroup, failedEntries, List.mem_filter, decide_eq_true_eq]
  tauto

lemma failedGroup_eq_nil_of_not_mem (entries : List LogEntry) (u : String)
    (h : u ∉ failedUsers entries) : failedGroup entries u = [] := by
  unfold failedGroup
  rw [List.filter_eq_nil_iff]
  intro e he
  simp only [decide_eq_true_eq]
  intro hu
  exact h ((mem_failedUsers entries u).mpr ⟨e, he, hu⟩)

lemma successUsers_nodup (entries : List LogEntry) : (successUsers entries).Nodup :=
  ((List.perm_insertionSort _ _).nodup_iff).mpr (List.nodup_dedup _)

lemma mem_successUsers (entries : List LogEntry) (u : String) :
    u ∈ successUsers entries ↔ ∃ e ∈ successEntries entries, e.username = u := by
  simp [successUsers, (List.perm_insertionSort _ _).mem_iff, List.mem_dedup]

lemma mem_successGroup (entries : List LogEntry) (u : String) (e : LogEntry) :
    e ∈ successGroup entries u ↔
      e ∈ entries ∧ e.status = LoginStatus.SUCCESS ∧ e.username = u := by
  simp only [successGroup, successEntries, List.mem_filter, decide_eq_true_eq]
  tauto

/- Restricting a detector's output to one username extracts exactly that
user's anchor-scan output. -/

lemma filter_username_flatMap (u : String) :
    ∀ (us : List String) (f : String → List SuspiciousEvent),
      us.Nodup → (∀ v ev, ev ∈ f v → ev.username = v) →
      (us.flatMap f).filter (fun ev => ev.username = u) =
        if u ∈ us then f u else [] := by
  intro us
  induction us with
  | nil => intro f _ _; simp
  | cons v vs ih =>
    intro f hnd hf
    rcases List.nodup_cons.mp hnd with ⟨hv, hnd'⟩
    simp only [List.flatMap_cons, List.filter_append]
    by_cases huv : u = v
    · subst huv
      have h1 : (f u).filter (fun ev => ev.username = u) = f u :=
        List.filter_eq_self.mpr (fun ev hev => by simp [hf u ev hev])
      have h2 : (vs.flatMap f).filter (fun ev => ev.username = u) = [] := by
        rw [ih f hnd' hf, if_neg hv]
      rw [h1, h2, if_pos (List.mem_cons_self u vs), List.append_nil]
    · have h1 : (f v).filter (fun ev => ev.username = u) = [] := by
        rw [List.filter_eq_nil_iff]
        intro ev hev
        simp only [decide_eq_true_eq]
        rw [hf v ev hev]
        exact Ne.symm huv
      rw [h1, ih f hnd' hf, List.nil_append]
      by_cases hu : u ∈ vs
      · rw [if_pos hu, if_pos (List.mem_cons_of_mem v hu)]
      · rw [if_neg hu, if_neg (by simp [huv, hu])]

lemma detectMultipleFailedLogins_filter_user (cfg : DetectorConfig)
    (entries : List LogEntry) (u : String) :
    (detectMultipleFailedLogins cfg entries).filter (fun ev => ev.username = u) =
      scanFailed cfg u (sortByTimestamp (failedGroup entries u)) := by
  have hf : ∀ v ev, ev ∈ scanFailed cfg v (sortByTimestamp (failedGroup entries v)) →
      ev.username = v := by
    intro v ev hev
    obtain ⟨a, _, h1, _⟩ := scanFailedAux_mem cfg v _ _ ev hev
    exact h1
  have key := filter_username_flatMap u (failedUsers entries)
      (fun v => scanFailed cfg v (sortByTimestamp (failedGroup entries v)))
      (failedUsers_nodup entries) hf
  unfold detectMultipleFailedLogins
  rw [key]
  by_cases hu : u ∈ failedUsers entries
  · rw [if_pos hu]
  · rw [if_neg hu, failedGroup_eq_nil_of_not_mem entries u hu]
    rfl

/- One fully clustered user group yields exactly one finding counting the
whole group. -/

lemma detect_failed_one_cluster (cfg : DetectorConfig) (entries : List LogEntry)
    (u : String)
    (hne : failedGroup entries u ≠ [])
    (hpair : ∀ e1 ∈ failedGroup entries u, ∀ e2 ∈ failedGroup entries u,
      isWithinTimeWindow cfg e1.timestamp e2.timestamp = true)
    (hT : cfg.failed_login_threshold ≤ ((failedGroup entries u).length : Int)) :
    ∃ ev, (detectMultipleFailedLogins cfg entries).filter
        (fun ev => ev.username = u) = [ev] ∧
      ev.event_count = ((failedGroup entries u).length : Int) ∧ ev.username = u := by
  rw [detectMultipleFailedLogins_filter_user]
  rcases hsort : sortByTimestamp (failedGroup entries u) with _ | ⟨a, rest⟩
  · exfalso
    have hperm := List.perm_insertionSort entryLE (failedGroup entries u)
    rw [show List.insertionSort entryLE (failedGroup entries u) =
        sortByTimestamp (failedGroup entries u) from rfl, hsort] at hperm
    exact hne hperm.symm.eq_nil
  · have hperm := List.perm_insertionSort entryLE (failedGroup entries u)
    rw [show List.insertionSort entryLE (failedGroup entries u) =
        sortByTimestamp (failedGroup entries u) from rfl, hsort] at hperm
    have hwithin : ∀ e ∈ rest,
        isWithinTimeWindow cfg a.timestamp e.timestamp = true := fun e he =>
      hpair a (hperm.subset (List.mem_cons_self a rest))
        e (hperm.subset (List.mem_cons_of_mem a he))
    have hlen : (failedGroup entries u).length = rest.length + 1 := by
      rw [← hperm.length_eq, List.length_cons]
    rw [scanFailed_all_within cfg u a rest hwithin
      (by rw [hlen] at hT; push_cast at hT ⊢; omega)]
    refine ⟨_, rfl, ?_, rfl⟩
    simp only [mkFailedEvent, hlen]
    push_cast
    ring

/- Event kinds emitted by the other two detectors. -/

lemma detectLoginsOutsideBusinessHours_mem_type (hourOf : Int → Int)
    (cfg : DetectorConfig) :
    ∀ (l : List LogEntry) (ev : SuspiciousEvent),
      ev ∈ detectLoginsOutsideBusinessHours hourOf cfg l →
      ev.type = SuspiciousEventType.LOGIN_OUTSIDE_BUSINESS_HOURS := by
  intro l
  induction l with
  | nil => intro ev h; simp [detectLoginsOutsideBusinessHours] at h
  | cons e rest ih =>
    intro ev h
    simp only [detectLoginsOutsideBusinessHours] at h
    by_cases h1 : e.status ≠ LoginStatus.SUCCESS
    · rw [if_pos h1] at h; exact ih ev h
    · rw [if_neg h1] at h
      by_cases h2 : hourOf e.timestamp < cfg.business_hour_start ∨
          cfg.business_hour_end ≤ hourOf e.timestamp
      · rw [if_pos h2] at h
        rcases List.mem_cons.mp h with hev | hev
        · simp [hev, mkAfterHoursEvent]
        · exact ih ev hev
      · rw [if_neg h2] at h; exact ih ev h

lemma scanMultiIPAux_mem (cfg : DetectorConfig) (u : String) :
    ∀ (fuel : Nat) (l : List LogEntry) (ev : SuspiciousEvent),
      ev ∈ scanMultiIPAux cfg u fuel l →
      ∃ anchor rest, (anchor :: rest) <:+ l ∧
        2 ≤ (sortedAddresses ((anchor :: rest.takeWhile fun e =>
          isWithinTimeWindow cfg anchor.timestamp e.timestamp).map
            fun e => e.ip_address)).length ∧
        ev = mkMultiIPEvent u
          (sortedAddresses ((anchor :: rest.takeWhile fun e =>
            isWithinTimeWindow cfg anchor.timestamp e.timestamp).map
              fun e => e.ip_address))
          anchor.timestamp
          ((rest.takeWhile fun e =>
            isWithinTimeWindow cfg anchor.timestamp e.timestamp).getLastD
              anchor).timestamp := by
  intro fuel
  induction fuel with
  | zero => intro l ev h; cases l <;> simp [scanMultiIPAux] at h
  | succ n ih =>
    intro l ev h
    cases l with
    | nil => simp [scanMultiIPAux] at h
    | cons a rest =>
      simp only [scanMultiIPAux] at h
      by_cases hc : 2 ≤ (sortedAddresses
          ((a :: rest.takeWhile fun e =>
            isWithinTimeWindow cfg a.timestamp e.timestamp).map
              fun e => e.ip_address)).length
      · rw [if_pos hc] at h
        rcases List.mem_cons.mp h with hev | hev
        · exact ⟨a, rest, List.suffix_refl _, hc, hev⟩
        · obtain ⟨b, rest2, hsuf, h2, hev'⟩ := ih _ ev hev
          exact ⟨b, rest2,
            hsuf.trans ((List.drop_suffix _ _).trans (List.suffix_cons a rest)),
            h2, hev'⟩
      · rw [if_neg hc] at h
        obtain ⟨b, rest2, hsuf, h2, hev'⟩ := ih rest ev h
        exact ⟨b, rest2, hsuf.trans (List.suffix_cons a rest), h2, hev'⟩

/- Properties of the accumulated address set. -/

lemma mem_sortedAddresses (ip : String) (l : List String) :
    ip ∈ sortedAddresses l ↔ ip ∈ l := by
  simp [sortedAddresses, (List.perm_insertionSort _ _).mem_iff, List.mem_dedup]

lemma strLT_of_strLE_ne {a b : String} (hle : strLE a b) (hne : a ≠ b) :
    a < b := by
  rw [String.lt_iff_toList_lt]
  exact lt_of_le_of_ne hle
    (fun hc => hne (by cases a; cases b; exact congrArg String.mk hc))

lemma sortedAddresses_sorted_lt (l : List String) :
    (sortedAddresses l).Sorted (· < ·) := by
  have hs : (sortedAddresses l).Sorted strLE := List.sorted_insertionSort _ _
  have hn : (sortedAddresses l).Nodup :=
    ((List.perm_insertionSort _ _).nodup_iff).mpr (List.nodup_dedup _)
  exact List.Pairwise.imp (fun h => strLT_of_strLE_ne h.1 h.2) (hs.and hn)


/-- C3: the within-window test used by both sliding-window detectors is
symmetric in its arguments, and holds iff the absolute timestamp difference
truncated to whole minutes is at most the configured window (inclusive
boundary); in particular a raw difference of 9 minutes 59 seconds and one
of 10 minutes 1 second are both within the default 10-minute window. -/
theorem within_window_symmetric_truncated_inclusive :
    (∀ (cfg : DetectorConfig) (t1 t2 : Int),
      isWithinTimeWindow cfg t1 t2 = isWithinTimeWindow cfg t2 t1) ∧
    (∀ (cfg : DetectorConfig) (t1 t2 : Int),
      isWithinTimeWindow cfg t1 t2 = true ↔
        (((t1 - t2).natAbs / 60 : Nat) : Int) ≤ cfg.time_window_minutes) ∧
    isWithinTimeWindow defaultConfig 0 599 = true ∧
    isWithinTimeWindow defaultConfig 0 601 = true :=
  ⟨isWithinTimeWindow_comm, isWithinTimeWindow_eq_true_iff, by decide, by decide⟩

/-- C9: every entry point of the engine is a total function in this
embedding (so each terminates with no error outcome on any finite input),
and with a configuration satisfying the range invariants each of the four
entry points maps the empty input to the empty output. -/
theorem detectors_total_empty_input :
    ∀ (hourOf : Int → Int) (cfg : DetectorConfig),
      0 < cfg.failed_login_threshold → 0 < cfg.time_window_minutes →
      0 ≤ cfg.business_hour_start →
      cfg.business_hour_start < cfg.business_hour_end →
      cfg.business_hour_end ≤ 23 →
      detectMultipleFailedLogins cfg [] = [] ∧
      detectLoginsOutsideBusinessHours hourOf cfg [] = [] ∧
      detectMultipleIPAddresses cfg [] = [] ∧
      detectAll hourOf cfg [] = [] :=
  fun _ _ _ _ _ _ _ => ⟨rfl, rfl, rfl, rfl⟩

/-- Witness for C9 at the default configuration. -/
theorem detectors_total_empty_input_witness :
    (0 < defaultConfig.failed_login_threshold ∧
      0 < defaultConfig.time_window_minutes ∧
      0 ≤ defaultConfig.business_hour_start ∧
      defaultConfig.business_hour_start < defaultConfig.business_hour_end ∧
      defaultConfig.business_hour_end ≤ 23) ∧
    (detectMultipleFailedLogins defaultConfig [] = [] ∧
      detectLoginsOutsideBusinessHours (fun _ => 12) defaultConfig [] = [] ∧
      detectMultipleIPAddresses defaultConfig [] = [] ∧
      detectAll (fun _ => 12) defaultConfig [] = []) :=
  ⟨⟨by decide, by decide, by decide, by decide, by decide⟩,
    detectors_total_empty_input (fun _ => 12) defaultConfig
      (by decide) (by decide) (by decide) (by decide) (by decide)⟩

/-- C2 counterexample: on the example scenario (seven FAILED records at
minute offsets 0 through 6, default threshold 5 and window 10) the engine
does not return a single finding with count 6 — the count is 7. -/
theorem example_scenario_count_not_six :
    (detectMultipleFailedLogins defaultConfig c2Entries).map
      (fun ev => ev.event_count) ≠ [6] := by
  decide

/-- C2 amended: on the example scenario the engine returns exactly one
finding for alice with count 7, spanning the records at offsets 0
through 6. -/
theorem example_scenario_single_finding_count_seven :
    detectMultipleFailedLogins defaultConfig c2Entries =
      [{ type := SuspiciousEventType.MULTIPLE_FAILED_LOGINS
         username := "alice"
         ip_addresses := ["192.168.1.1"]
         first_occurrence := 0
         last_occurrence := 360
         event_count := 7 }] := by
  decide

/-- C8: `detectAll` is the concatenation of the three detectors run
independently on the same input in the fixed order failed-login,
after-hours, multi-address; its length is the sum of the three lengths and
the three segments are pure in their finding kinds. -/
theorem detectAll_concatenation_of_detectors :
    ∀ (hourOf : Int → Int) (cfg : DetectorConfig) (entries : List LogEntry),
      detectAll hourOf cfg entries =
        detectMultipleFailedLogins cfg entries ++
          detectLoginsOutsideBusinessHours hourOf cfg entries ++
            detectMultipleIPAddresses cfg entries ∧
      (detectAll hourOf cfg entries).length =
        (detectMultipleFailedLogins cfg entries).length +
          (detectLoginsOutsideBusinessHours hourOf cfg entries).length +
            (detectMultipleIPAddresses cfg entries).length ∧
      (detectMultipleFailedLogins cfg entries).all
        (fun ev => ev.type = SuspiciousEventType.MULTIPLE_FAILED_LOGINS) = true ∧
      (detectLoginsOutsideBusinessHours hourOf cfg entries).all
        (fun ev => ev.type = SuspiciousEventType.LOGIN_OUTSIDE_BUSINESS_HOURS) = true ∧
      (detectMultipleIPAddresses cfg entries).all
        (fun ev => ev.type = SuspiciousEventType.MULTIPLE_IP_ADDRESSES) = true := by
  intro hourOf cfg entries
  refine ⟨rfl, by simp [detectAll]; omega, ?_, ?_, ?_⟩
  · rw [List.all_eq_true]
    intro ev hev
    simp only [decide_eq_true_eq]
    unfold detectMultipleFailedLogins at hev
    obtain ⟨u, _, hev'⟩ := List.mem_flatMap.mp hev
    obtain ⟨a, _, _, ht, _⟩ := scanFailedAux_mem cfg u _ _ ev hev'
    exact ht
  · rw [List.all_eq_true]
    intro ev hev
    simp only [decide_eq_true_eq]
    exact detectLoginsOutsideBusinessHours_mem_type hourOf cfg entries ev hev
  · rw [List.all_eq_true]
    intro ev hev
    simp only [decide_eq_true_eq]
    unfold detectMultipleIPAddresses at hev
    obtain ⟨u, _, hev'⟩ := List.mem_flatMap.mp hev
    obtain ⟨anchor, rest0, _, _, hev''⟩ := scanMultiIPAux_mem cfg u _ _ ev hev'
    rw [hev'']
    rfl

/-- Structural characterisation of the after-hours detector: it is the
per-record filterMap of the specification's rule. -/
lemma afterHours_eq_filterMap (hourOf : Int → Int) (cfg : DetectorConfig) :
    ∀ entries, detectLoginsOutsideBusinessHours hourOf cfg entries =
      entries.filterMap (afterHoursSpec hourOf cfg) := by
  intro entries
  induction entries with
  | nil => rfl
  | cons e rest ih =>
    by_cases h1 : e.status = LoginStatus.SUCCESS
    · by_cases h2 : hourOf e.timestamp < cfg.business_hour_start ∨
          cfg.business_hour_end ≤ hourOf e.timestamp
      · rw [List.filterMap_cons_some
            (show afterHoursSpec hourOf cfg e = some (mkAfterHoursEvent e) from
              if_pos ⟨h1, h2⟩)]
        simp only [detectLoginsOutsideBusinessHours]
        rw [if_neg (by simp [h1]), if_pos h2, ih]
      · rw [List.filterMap_cons_none
            (show afterHoursSpec hourOf cfg e = none from
              if_neg (fun hc => h2 hc.2))]
        simp only [detectLoginsOutsideBusinessHours]
        rw [if_neg (by simp [h1]), if_neg h2, ih]
    · rw [List.filterMap_cons_none
          (show afterHoursSpec hourOf cfg e = none from
            if_neg (fun hc => h1 hc.1))]
      simp only [detectLoginsOutsideBusinessHours]
      rw [if_pos h1, ih]

/-- C5: the after-hours detector emits a finding for a record iff its
outcome is SUCCESS and its hour is `< business_hour_start` or
`>= business_hour_end` (the per-record rule `afterHoursSpec`, which also
fixes window start = window end = the record's timestamp and count 1); in
particular, with the default hours a SUCCESS login at hour 18 is flagged,
one at hour 17 is not, and FAILED or UNKNOWN records are never flagged at
any hour. -/
theorem after_hours_per_record_characterisation :
    (∀ (hourOf : Int → Int) (cfg : DetectorConfig) (entries : List LogEntry),
      detectLoginsOutsideBusinessHours hourOf cfg entries =
        entries.filterMap (afterHoursSpec hourOf cfg)) ∧
    detectLoginsOutsideBusinessHours (fun _ => 18) defaultConfig
        [⟨0, "alice", "10.0.0.1", LoginStatus.SUCCESS⟩] =
      [mkAfterHoursEvent ⟨0, "alice", "10.0.0.1", LoginStatus.SUCCESS⟩] ∧
    detectLoginsOutsideBusinessHours (fun _ => 17) defaultConfig
        [⟨0, "alice", "10.0.0.1", LoginStatus.SUCCESS⟩] = [] ∧
    (∀ h : Int, detectLoginsOutsideBusinessHours (fun _ => h) defaultConfig
        [⟨0, "alice", "10.0.0.1", LoginStatus.FAILED⟩] = []) ∧
    (∀ h : Int, detectLoginsOutsideBusinessHours (fun _ => h) defaultConfig
        [⟨0, "alice", "10.0.0.1", LoginStatus.UNKNOWN⟩] = []) :=
  ⟨afterHours_eq_filterMap, by decide, by decide, fun _ => rfl, fun _ => rfl⟩

/-- C1: a user whose FAILED records number exactly twice the threshold and
lie pairwise within the time window receives exactly one finding (the
anchor skips past the whole matched cluster on emission), counting all of
them. -/
theorem failed_cluster_double_threshold_single_finding :
    ∀ (cfg : DetectorConfig) (entries : List LogEntry) (u : String),
      1 ≤ cfg.failed_login_threshold →
      ((failedGroup entries u).length : Int) = 2 * cfg.failed_login_threshold →
      (∀ e1 ∈ failedGroup entries u, ∀ e2 ∈ failedGroup entries u,
        isWithinTimeWindow cfg e1.timestamp e2.timestamp = true) →
      ∃ ev, (detectMultipleFailedLogins cfg entries).filter
          (fun ev => ev.username = u) = [ev] ∧
        ev.event_count = 2 * cfg.failed_login_threshold := by
  intro cfg entries u hT hlen hpair
  obtain ⟨ev, hev, hcount, _⟩ := detect_failed_one_cluster cfg entries u
    (by intro hnil; rw [hnil] at hlen; simp at hlen; omega)
    hpair (by rw [hlen]; omega)
  exact ⟨ev, hev, by rw [hcount, hlen]⟩

/-- Witness for C1: threshold 1, two failed records for carol one minute
apart produce exactly one finding counting both. -/
theorem failed_cluster_double_threshold_single_finding_witness :
    (1 ≤ (⟨1, 10, 8, 18⟩ : DetectorConfig).failed_login_threshold ∧
      ((failedGroup carolEntries "carol").length : Int) =
        2 * (⟨1, 10, 8, 18⟩ : DetectorConfig).failed_login_threshold ∧
      (∀ e1 ∈ failedGroup carolEntries "carol",
        ∀ e2 ∈ failedGroup carolEntries "carol",
        isWithinTimeWindow ⟨1, 10, 8, 18⟩ e1.timestamp e2.timestamp = true)) ∧
    (∃ ev, (detectMultipleFailedLogins ⟨1, 10, 8, 18⟩ carolEntries).filter
        (fun ev => ev.username = "carol") = [ev] ∧
      ev.event_count = 2 * (⟨1, 10, 8, 18⟩ : DetectorConfig).failed_login_threshold) :=
  ⟨⟨by decide, by decide, by decide⟩,
    failed_cluster_double_threshold_single_finding ⟨1, 10, 8, 18⟩ carolEntries
      "carol" (by decide) (by decide) (by decide)⟩

/-- C10: every finding of the failed-login detector carries exactly one
source address: that of a FAILED record of the same user whose timestamp is
the finding's window start (the anchor record), regardless of the addresses
of the other clustered records. -/
theorem failed_finding_single_anchor_address :
    ∀ (cfg : DetectorConfig) (entries : List LogEntry) (ev : SuspiciousEvent),
      ev ∈ detectMultipleFailedLogins cfg entries →
      ∃ a, a ∈ entries ∧ a.status = LoginStatus.FAILED ∧
        a.username = ev.username ∧ a.timestamp = ev.first_occurrence ∧
        ev.ip_addresses = [a.ip_address] := by
  intro cfg entries ev hev
  unfold detectMultipleFailedLogins at hev
  obtain ⟨u, _, hev'⟩ := List.mem_flatMap.mp hev
  obtain ⟨a, ha, husr, _, hip, hts⟩ := scanFailedAux_mem cfg u _ _ ev hev'
  have ha' : a ∈ failedGroup entries u :=
    (List.perm_insertionSort entryLE (failedGroup entries u)).subset ha
  rw [mem_failedGroup] at ha'
  exact ⟨a, ha'.1, ha'.2.1, by rw [husr]; exact ha'.2.2, hts.symm, hip⟩

/-- Witness for C10: the single finding on daveEntries (threshold 1) comes
with the anchor record's address. -/
theorem failed_finding_single_anchor_address_witness :
    ((⟨SuspiciousEventType.MULTIPLE_FAILED_LOGINS, "dave", ["7.7.7.7"], 0, 0, 1⟩ :
        SuspiciousEvent) ∈
      detectMultipleFailedLogins ⟨1, 10, 8, 18⟩ daveEntries) ∧
    (∃ a, a ∈ daveEntries ∧ a.status = LoginStatus.FAILED ∧
      a.username = "dave" ∧ a.timestamp = 0 ∧
      ["7.7.7.7"] = [a.ip_address]) :=
  ⟨by decide,
    failed_finding_single_anchor_address ⟨1, 10, 8, 18⟩ daveEntries
      ⟨SuspiciousEventType.MULTIPLE_FAILED_LOGINS, "dave", ["7.7.7.7"], 0, 0, 1⟩
      (by decide)⟩


lemma sortByTimestamp_length (l : List LogEntry) :
    (sortByTimestamp l).length = l.length :=
  (List.perm_insertionSort _ _).length_eq

/-- C4 counterexample: with threshold 3 and window 10, victor's two failed
records (659 s, 718 s) are a within-window cluster of size threshold − 1,
and the added record at 0 s sits at truncated distance exactly the window
from the cluster's earliest record — yet the detector emits no finding at
all, because the added record becomes the earliest anchor and the far
record falls outside its window. -/
theorem boundary_attempt_before_cluster_no_finding :
    ((failedGroup victorEntries "victor").length : Int) =
      (⟨3, 10, 8, 18⟩ : DetectorConfig).failed_login_threshold - 1 ∧
    (∀ e1 ∈ failedGroup victorEntries "victor",
      ∀ e2 ∈ failedGroup victorEntries "victor",
      isWithinTimeWindow ⟨3, 10, 8, 18⟩ e1.timestamp e2.timestamp = true) ∧
    (victorAdded.timestamp - 659).natAbs / 60 = 10 ∧
    victorAdded.status = LoginStatus.FAILED ∧
    victorAdded.username = "victor" ∧
    detectMultipleFailedLogins ⟨3, 10, 8, 18⟩ (victorEntries ++ [victorAdded]) = [] := by
  decide

/-- C4 amended: a user with exactly threshold − 1 FAILED records pairwise
within the window gets zero findings; adding one more FAILED record for
that user, timestamped no earlier than the cluster's earliest record and at
truncated distance exactly the window from that earliest record, yields
exactly one finding whose count equals the threshold. -/
theorem threshold_minus_one_then_boundary_attempt :
    (∀ (cfg : DetectorConfig) (entries : List LogEntry) (u : String),
      ((failedGroup entries u).length : Int) = cfg.failed_login_threshold - 1 →
      (∀ e1 ∈ failedGroup entries u, ∀ e2 ∈ failedGroup entries u,
        isWithinTimeWindow cfg e1.timestamp e2.timestamp = true) →
      (detectMultipleFailedLogins cfg entries).filter
        (fun ev => ev.username = u) = []) ∧
    (∀ (cfg : DetectorConfig) (entries : List LogEntry) (u : String)
        (e0 n : LogEntry),
      ((failedGroup entries u).length : Int) = cfg.failed_login_threshold - 1 →
      (∀ e1 ∈ failedGroup entries u, ∀ e2 ∈ failedGroup entries u,
        isWithinTimeWindow cfg e1.timestamp e2.timestamp = true) →
      e0 ∈ failedGroup entries u →
      (∀ e ∈ failedGroup entries u, e0.timestamp ≤ e.timestamp) →
      n.status = LoginStatus.FAILED → n.username = u →
      e0.timestamp ≤ n.timestamp →
      (((n.timestamp - e0.timestamp).natAbs / 60 : Nat) : Int) =
        cfg.time_window_minutes →
      ∃ ev, (detectMultipleFailedLogins cfg (entries ++ [n])).filter
          (fun ev => ev.username = u) = [ev] ∧
        ev.event_count = cfg.failed_login_threshold) := by
  constructor
  · intro cfg entries u hlen _
    rw [detectMultipleFailedLogins_filter_user]
    apply scanFailed_short
    rw [sortByTimestamp_length]
    omega
  · intro cfg entries u e0 n hlen hpair he0 hmin hnstat hnuser hnafter hbound
    have hgrp : failedGroup (entries ++ [n]) u = failedGroup entries u ++ [n] := by
      simp [failedGroup, failedEntries, List.filter_append, hnstat, hnuser]
    have hW : 0 ≤ cfg.time_window_minutes := by omega
    have hn0 : isWithinTimeWindow cfg n.timestamp e0.timestamp = true :=
      (isWithinTimeWindow_eq_true_iff cfg _ _).mpr (by omega)
    have hpair' : ∀ e1 ∈ failedGroup (entries ++ [n]) u,
        ∀ e2 ∈ failedGroup (entries ++ [n]) u,
        isWithinTimeWindow cfg e1.timestamp e2.timestamp = true := by
      rw [hgrp]
      intro e1 h1 e2 h2
      rcases List.mem_append.mp h1 with h1g | h1n
      · rcases List.mem_append.mp h2 with h2g | h2n
        · exact hpair e1 h1g e2 h2g
        · have h2n' : e2 = n := List.mem_singleton.mp h2n
          rw [h2n']
          have hge := hmin e1 h1g
          rcases le_total e1.timestamp n.timestamp with hle | hle
          · exact isWithinTimeWindow_mono cfg (by omega) hn0
          · exact isWithinTimeWindow_mono cfg (by omega) (hpair e1 h1g e0 he0)
      · have h1n' : e1 = n := List.mem_singleton.mp h1n
        rw [h1n']
        rcases List.mem_append.mp h2 with h2g | h2n
        · have hge := hmin e2 h2g
          rcases le_total e2.timestamp n.timestamp with hle | hle
          · exact isWithinTimeWindow_mono cfg (by omega) hn0
          · exact isWithinTimeWindow_mono cfg (by omega) (hpair e2 h2g e0 he0)
        · have h2n' : e2 = n := List.mem_singleton.mp h2n
          rw [h2n']
          exact (isWithinTimeWindow_eq_true_iff cfg _ _).mpr (by omega)
    have hlen' : ((failedGroup (entries ++ [n]) u).length : Int) =
        cfg.failed_login_threshold := by
      rw [hgrp, List.length_append, List.length_singleton]
      push_cast
      omega
    obtain ⟨ev, hev, hcount, _⟩ := detect_failed_one_cluster cfg (entries ++ [n]) u
      (by rw [hgrp]; simp) hpair' (le_of_eq hlen'.symm)
    exact ⟨ev, hev, by rw [hcount, hlen']⟩

/-- Witness for the amended C4: threshold 3, erin fails at 0 s and 59 s
(zero findings), then adding a failed attempt at 600 s — exactly ten
truncated minutes after the earliest record — produces one finding with
count 3. -/
theorem threshold_minus_one_then_boundary_attempt_witness :
    (((failedGroup erinEntries "erin").length : Int) =
        (⟨3, 10, 8, 18⟩ : DetectorConfig).failed_login_threshold - 1 ∧
      (∀ e1 ∈ failedGroup erinEntries "erin",
        ∀ e2 ∈ failedGroup erinEntries "erin",
        isWithinTimeWindow ⟨3, 10, 8, 18⟩ e1.timestamp e2.timestamp = true) ∧
      (⟨0, "erin", "1.1.1.1", LoginStatus.FAILED⟩ : LogEntry) ∈
        failedGroup erinEntries "erin" ∧
      (∀ e ∈ failedGroup erinEntries "erin",
        (⟨0, "erin", "1.1.1.1", LoginStatus.FAILED⟩ : LogEntry).timestamp ≤
          e.timestamp) ∧
      erinAdded.status = LoginStatus.FAILED ∧
      erinAdded.username = "erin" ∧
      (⟨0, "erin", "1.1.1.1", LoginStatus.FAILED⟩ : LogEntry).timestamp ≤
        erinAdded.timestamp ∧
      (((erinAdded.timestamp -
          (⟨0, "erin", "1.1.1.1", LoginStatus.FAILED⟩ : LogEntry).timestamp).natAbs /
            60 : Nat) : Int) =
        (⟨3, 10, 8, 18⟩ : DetectorConfig).time_window_minutes) ∧
    (detectMultipleFailedLogins ⟨3, 10, 8, 18⟩ erinEntries).filter
        (fun ev => ev.username = "erin") = [] ∧
    (∃ ev, (detectMultipleFailedLogins ⟨3, 10, 8, 18⟩
          (erinEntries ++ [erinAdded])).filter
        (fun ev => ev.username = "erin") = [ev] ∧
      ev.event_count = (⟨3, 10, 8, 18⟩ : DetectorConfig).failed_login_threshold) :=
  ⟨⟨by decide, by decide, by decide, by decide, by decide, by decide, by decide,
      by decide⟩,
    threshold_minus_one_then_boundary_attempt.1 ⟨3, 10, 8, 18⟩ erinEntries "erin"
      (by decide) (by decide),
    threshold_minus_one_then_boundary_attempt.2 ⟨3, 10, 8, 18⟩ erinEntries "erin"
      ⟨0, "erin", "1.1.1.1", LoginStatus.FAILED⟩ erinAdded
      (by decide) (by decide) (by decide) (by decide) (by decide) (by decide)
      (by decide) (by decide)⟩


/- Helper computations for two-record multi-address inputs. -/

lemma dedup_single (a : String) : ([a] : List String).dedup = [a] := by
  rw [List.dedup_cons_of_not_mem (List.not_mem_nil a), List.dedup_nil]

lemma sortedAddresses_singleton (ip : String) : sortedAddresses [ip] = [ip] := by
  unfold sortedAddresses
  rw [dedup_single]
  rfl

lemma sortedAddresses_pair_length (ip1 ip2 : String) (h : ip1 ≠ ip2) :
    (sortedAddresses [ip1, ip2]).length = 2 := by
  unfold sortedAddresses
  rw [(List.perm_insertionSort _ _).length_eq,
    List.dedup_cons_of_not_mem (by simp [h]), dedup_single]
  rfl

lemma scanMultiIPAux_nil (cfg : DetectorConfig) (u : String) (fuel : Nat) :
    scanMultiIPAux cfg u fuel [] = [] := by
  cases fuel <;> rfl

lemma scanMultiIP_pair_within (cfg : DetectorConfig) (u : String)
    (e1 e2 : LogEntry)
    (hin : isWithinTimeWindow cfg e1.timestamp e2.timestamp = true)
    (hips : 2 ≤ (sortedAddresses [e1.ip_address, e2.ip_address]).length) :
    scanMultiIP cfg u [e1, e2] =
      [mkMultiIPEvent u (sortedAddresses [e1.ip_address, e2.ip_address])
        e1.timestamp e2.timestamp] := by
  have htake : ([e2].takeWhile fun e =>
      isWithinTimeWindow cfg e1.timestamp e.timestamp) = [e2] :=
    List.takeWhile_eq_self_iff.mpr (by simpa using hin)
  show scanMultiIPAux cfg u ([e1, e2]).length [e1, e2] = _
  simp only [List.length_cons, List.length_nil, scanMultiIPAux, htake,
    List.map_cons, List.map_nil]
  rw [if_pos hips]
  rfl

lemma scanMultiIP_pair_outside (cfg : DetectorConfig) (u : String)
    (e1 e2 : LogEntry)
    (hout : isWithinTimeWindow cfg e1.timestamp e2.timestamp = false) :
    scanMultiIP cfg u [e1, e2] = [] := by
  have htake : ([e2].takeWhile fun e =>
      isWithinTimeWindow cfg e1.timestamp e.timestamp) = [] := by
    rw [List.takeWhile_cons_of_neg (by simp [hout])]
  show scanMultiIPAux cfg u ([e1, e2]).length [e1, e2] = _
  simp only [List.length_cons, List.length_nil, scanMultiIPAux, htake,
    List.map_cons, List.map_nil, List.takeWhile_nil]
  rw [if_neg (by simp [sortedAddresses_singleton]),
    if_neg (by simp [sortedAddresses_singleton])]

lemma detectMultipleIPAddresses_pair (cfg : DetectorConfig) (u ip1 ip2 : String)
    (t1 t2 : Int) (hle : t1 ≤ t2) :
    detectMultipleIPAddresses cfg
        [⟨t1, u, ip1, LoginStatus.SUCCESS⟩, ⟨t2, u, ip2, LoginStatus.SUCCESS⟩] =
      scanMultiIP cfg u
        [⟨t1, u, ip1, LoginStatus.SUCCESS⟩, ⟨t2, u, ip2, LoginStatus.SUCCESS⟩] := by
  have hfil : successEntries
      [⟨t1, u, ip1, LoginStatus.SUCCESS⟩, ⟨t2, u, ip2, LoginStatus.SUCCESS⟩] =
      [⟨t1, u, ip1, LoginStatus.SUCCESS⟩, ⟨t2, u, ip2, LoginStatus.SUCCESS⟩] := by
    simp [successEntries]
  have husers : successUsers
      [⟨t1, u, ip1, LoginStatus.SUCCESS⟩, ⟨t2, u, ip2, LoginStatus.SUCCESS⟩] =
      [u] := by
    unfold successUsers
    rw [hfil]
    show List.insertionSort strLE (([u, u] : List String)).dedup = [u]
    rw [List.dedup_cons_of_mem (List.mem_singleton.mpr rfl), dedup_single]
    rfl
  have hgrp : successGroup
      [⟨t1, u, ip1, LoginStatus.SUCCESS⟩, ⟨t2, u, ip2, LoginStatus.SUCCESS⟩] u =
      [⟨t1, u, ip1, LoginStatus.SUCCESS⟩, ⟨t2, u, ip2, LoginStatus.SUCCESS⟩] := by
    simp [successGroup, successEntries]
  have hsorted : sortByTimestamp
      [⟨t1, u, ip1, LoginStatus.SUCCESS⟩, ⟨t2, u, ip2, LoginStatus.SUCCESS⟩] =
      [⟨t1, u, ip1, LoginStatus.SUCCESS⟩, ⟨t2, u, ip2, LoginStatus.SUCCESS⟩] := by
    show List.orderedInsert entryLE ⟨t1, u, ip1, LoginStatus.SUCCESS⟩
        [⟨t2, u, ip2, LoginStatus.SUCCESS⟩] = _
    simp only [List.orderedInsert]
    rw [if_pos (show entryLE ⟨t1, u, ip1, LoginStatus.SUCCESS⟩
      ⟨t2, u, ip2, LoginStatus.SUCCESS⟩ from hle)]
  unfold detectMultipleIPAddresses
  rw [husers]
  simp only [List.flatMap_cons, List.flatMap_nil, List.append_nil]
  rw [hgrp, hsorted]


/-- C6: two SUCCESS records by the same user from distinct addresses exactly
`window` minutes apart produce exactly one multi-address finding with count
2 containing both addresses; the same pair `window + 1` minutes apart
produces no finding. -/
theorem multi_ip_two_records_boundary :
    ∀ (cfg : DetectorConfig) (u ip1 ip2 : String) (t : Int),
      0 ≤ cfg.time_window_minutes → ip1 ≠ ip2 →
      (∃ ev, detectMultipleIPAddresses cfg
          [⟨t, u, ip1, LoginStatus.SUCCESS⟩,
           ⟨t + 60 * cfg.time_window_minutes, u, ip2, LoginStatus.SUCCESS⟩] =
          [ev] ∧
        ev.event_count = 2 ∧ ip1 ∈ ev.ip_addresses ∧ ip2 ∈ ev.ip_addresses) ∧
      detectMultipleIPAddresses cfg
          [⟨t, u, ip1, LoginStatus.SUCCESS⟩,
           ⟨t + 60 * (cfg.time_window_minutes + 1), u, ip2,
             LoginStatus.SUCCESS⟩] = [] := by
  intro cfg u ip1 ip2 t hW hip
  constructor
  · have hin : isWithinTimeWindow cfg t (t + 60 * cfg.time_window_minutes) = true :=
      (isWithinTimeWindow_eq_true_iff cfg _ _).mpr (by omega)
    rw [detectMultipleIPAddresses_pair cfg u ip1 ip2 t
        (t + 60 * cfg.time_window_minutes) (by omega),
      scanMultiIP_pair_within cfg u ⟨t, u, ip1, LoginStatus.SUCCESS⟩
        ⟨t + 60 * cfg.time_window_minutes, u, ip2, LoginStatus.SUCCESS⟩ hin
        (le_of_eq (sortedAddresses_pair_length ip1 ip2 hip).symm)]
    refine ⟨_, rfl, ?_, ?_, ?_⟩
    · show ((sortedAddresses [ip1, ip2]).length : Int) = 2
      rw [sortedAddresses_pair_length ip1 ip2 hip]
      rfl
    · exact (mem_sortedAddresses ip1 _).mpr (by simp)
    · exact (mem_sortedAddresses ip2 _).mpr (by simp)
  · have hout : isWithinTimeWindow cfg t
        (t + 60 * (cfg.time_window_minutes + 1)) = false := by
      rw [Bool.eq_false_iff]
      intro hc
      rw [isWithinTimeWindow_eq_true_iff] at hc
      omega
    rw [detectMultipleIPAddresses_pair cfg u ip1 ip2 t
      (t + 60 * (cfg.time_window_minutes + 1)) (by omega)]
    exact scanMultiIP_pair_outside cfg u ⟨t, u, ip1, LoginStatus.SUCCESS⟩
      ⟨t + 60 * (cfg.time_window_minutes + 1), u, ip2, LoginStatus.SUCCESS⟩ hout

/-- Witness for C6 at the default configuration, user frank. -/
theorem multi_ip_two_records_boundary_witness :
    (0 ≤ defaultConfig.time_window_minutes ∧ ("3.3.3.3" : String) ≠ "4.4.4.4") ∧
    ((∃ ev, detectMultipleIPAddresses defaultConfig
        [⟨0, "frank", "3.3.3.3", LoginStatus.SUCCESS⟩,
         ⟨0 + 60 * defaultConfig.time_window_minutes, "frank", "4.4.4.4",
           LoginStatus.SUCCESS⟩] = [ev] ∧
      ev.event_count = 2 ∧ ("3.3.3.3" : String) ∈ ev.ip_addresses ∧
        ("4.4.4.4" : String) ∈ ev.ip_addresses) ∧
    detectMultipleIPAddresses defaultConfig
        [⟨0, "frank", "3.3.3.3", LoginStatus.SUCCESS⟩,
         ⟨0 + 60 * (defaultConfig.time_window_minutes + 1), "frank", "4.4.4.4",
           LoginStatus.SUCCESS⟩] = []) :=
  ⟨⟨by decide, by decide⟩,
    multi_ip_two_records_boundary defaultConfig "frank" "3.3.3.3" "4.4.4.4" 0
      (by decide) (by decide)⟩

/-- C7: every multi-address finding lists, in strictly ascending text order,
exactly the distinct source addresses of the records counted into its
window, and its count equals the number of those distinct addresses, not
the number of contributing records.  The counted records are pinned
completely: the anchor heads a suffix of the user's time-sorted successful
records and `included` is exactly the `takeWhile` within-window prefix of
the remainder (the forward scan with its early exit), and the finding's
address list equals the sorted distinct addresses of anchor plus
`included`. -/
theorem multi_ip_finding_addresses_sorted_distinct :
    ∀ (cfg : DetectorConfig) (entries : List LogEntry) (ev : SuspiciousEvent),
      ev ∈ detectMultipleIPAddresses cfg entries →
      ev.ip_addresses.Sorted (· < ·) ∧
      ev.event_count = (ev.ip_addresses.length : Int) ∧
      ∃ anchor rest included,
        included = rest.takeWhile
          (fun e => isWithinTimeWindow cfg anchor.timestamp e.timestamp) ∧
        (anchor :: rest) <:+ sortByTimestamp (successGroup entries ev.username) ∧
        (anchor ∈ entries ∧ anchor.status = LoginStatus.SUCCESS ∧
          anchor.username = ev.username ∧
          ev.first_occurrence = anchor.timestamp) ∧
        (∀ e ∈ included, e ∈ entries ∧ e.status = LoginStatus.SUCCESS ∧
          e.username = ev.username ∧
          isWithinTimeWindow cfg anchor.timestamp e.timestamp = true) ∧
        ev.last_occurrence = (included.getLastD anchor).timestamp ∧
        ev.ip_addresses =
          sortedAddresses ((anchor :: included).map fun e => e.ip_address) ∧
        (∀ ip, ip ∈ ev.ip_addresses ↔
          ip ∈ (anchor :: included).map fun e => e.ip_address) := by
  intro cfg entries ev hev
  unfold detectMultipleIPAddresses at hev
  obtain ⟨u, _, hev'⟩ := List.mem_flatMap.mp hev
  obtain ⟨anchor, rest0, hsuf, _, hevEq⟩ := scanMultiIPAux_mem cfg u _ _ ev hev'
  have husr : ev.username = u := by rw [hevEq]; rfl
  have hperm := List.perm_insertionSort entryLE (successGroup entries u)
  have hmem : ∀ e ∈ anchor :: rest0, e ∈ successGroup entries u :=
    fun e he => hperm.subset (hsuf.subset he)
  have hanc' : anchor ∈ successGroup entries u :=
    hmem anchor (List.mem_cons_self _ _)
  rw [mem_successGroup] at hanc'
  refine ⟨?_, ?_, anchor, rest0,
    rest0.takeWhile (fun e => isWithinTimeWindow cfg anchor.timestamp e.timestamp),
    rfl, ?_, ⟨hanc'.1, hanc'.2.1, ?_, ?_⟩, ?_, ?_, ?_, ?_⟩
  · rw [hevEq]
    exact sortedAddresses_sorted_lt _
  · rw [hevEq]
    rfl
  · rw [husr]
    exact hsuf
  · rw [husr]
    exact hanc'.2.2
  · rw [hevEq]
    rfl
  · intro e he
    have hr : e ∈ rest0 := (List.takeWhile_sublist _).subset he
    have he' : e ∈ successGroup entries u :=
      hmem e (List.mem_cons_of_mem anchor hr)
    rw [mem_successGroup] at he'
    refine ⟨he'.1, he'.2.1, ?_, @List.mem_takeWhile_imp LogEntry
      (fun e => isWithinTimeWindow cfg anchor.timestamp e.timestamp) rest0 e he⟩
    rw [husr]
    exact he'.2.2
  · rw [hevEq]
    rfl
  · rw [hevEq]
    rfl
  · intro ip
    rw [hevEq]
    exact mem_sortedAddresses ip _

/-- Witness for C7: the finding on bobEntries. -/
theorem multi_ip_finding_addresses_sorted_distinct_witness :
    (bobEvent ∈ detectMultipleIPAddresses defaultConfig bobEntries) ∧
    (bobEvent.ip_addresses.Sorted (· < ·) ∧
      bobEvent.event_count = (bobEvent.ip_addresses.length : Int) ∧
      ∃ anchor rest included,
        included = rest.takeWhile
          (fun e => isWithinTimeWindow defaultConfig anchor.timestamp
            e.timestamp) ∧
        (anchor :: rest) <:+
          sortByTimestamp (successGroup bobEntries bobEvent.username) ∧
        (anchor ∈ bobEntries ∧ anchor.status = LoginStatus.SUCCESS ∧
          anchor.username = bobEvent.username ∧
          bobEvent.first_occurrence = anchor.timestamp) ∧
        (∀ e ∈ included, e ∈ bobEntries ∧ e.status = LoginStatus.SUCCESS ∧
          e.username = bobEvent.username ∧
          isWithinTimeWindow defaultConfig anchor.timestamp e.timestamp = true) ∧
        bobEvent.last_occurrence = (included.getLastD anchor).timestamp ∧
        bobEvent.ip_addresses =
          sortedAddresses ((anchor :: included).map fun e => e.ip_address) ∧
        (∀ ip, ip ∈ bobEvent.ip_addresses ↔
          ip ∈ (anchor :: included).map fun e => e.ip_address)) :=
  ⟨by decide,
    multi_ip_finding_addresses_sorted_distinct defaultConfig bobEntries bobEvent
      (by decide)⟩

end LogAnalyzer
